import Mathlib

/-!
Verification of the access-configuration panel, the Facebook authenticator form and
the field adapters of the identity-apps console.

The development shallowly embeds the relevant TypeScript functions:

* `getSupportedProtocols` and `loadSupportedProtocols` from
  `access-configuration.tsx` (protocol filtering and sorting);
* the backend-call handlers of the same file (`handleInboundConfigDelete`,
  `handleInboundConfigSwitch`, `handleInboundConfigFormSubmit`, `handleSubmit`,
  `handleApplicationRegenerate`, `handleApplicationRevoke`, the protocol-metadata
  fetch effect), each as a pure function from the call outcome to the effects it
  produces (backend calls, dispatched notices, invoked callbacks);
* the delete-confirmation modal flow as a small state machine;
* the value-precedence logic of the field adapters (`TextFieldAdapter`,
  `PasswordFieldAdapter`, `CopyFieldAdapter`, `TextAreaAdapter`, `SelectAdapter`);
* the initialisation effect and `getUpdatedConfigurations` of
  `facebook-authenticator-form.tsx`.

Localised strings are represented by their i18n keys (the translation function `t`
is modelled as the identity on keys); JavaScript string truthiness is modelled
explicitly (`none` and the empty string are falsy).
-/

/-! ### Supported auth protocol types

Modelled from the spec: the protocol type tags are OIDC, SAML, WS-Trust,
WS-Federation and custom (`SupportedAuthProtocolTypes` lives outside the sampled
sources; the string values are the distinct tags of the enum). -/

/-- Modelled from the spec: the OIDC protocol tag. -/
def oidc : String := "oidc"

/-- Modelled from the spec: the SAML protocol tag. -/
def saml : String := "saml"

/-- Modelled from the spec: the WS-Trust protocol tag. -/
def wsTrust : String := "ws-trust"

/-- Modelled from the spec: the WS-Federation protocol tag. -/
def wsFederation : String := "passive-sts"

/-- Modelled from the spec: the custom protocol tag. -/
def customProtocol : String := "custom"

/-- Modelled from the spec: `Object.values(SupportedAuthProtocolTypes)`, the catalog
of supported protocol types. -/
def supportedAuthProtocolValues : List String :=
  [oidc, saml, wsTrust, wsFederation, customProtocol]

/-- Modelled from the spec: the identifier of the custom application template
(`CustomApplicationTemplate.id`, a JSON constant outside the sampled sources). -/
def customApplicationTemplateId : String := "custom-application"

/-- The part of `ApplicationTemplateListItemInterface` read by
`getSupportedProtocols`: the template id and the optional protocol the template
declares. -/
structure TemplateInfo where
  id : String
  authenticationProtocol : Option String
deriving DecidableEq, Repr

/-- The filter predicate of `getSupportedProtocols` (access-configuration.tsx,
body of the `supportedProtocols.filter` callback).  `allowedProtocolTypes` is
`applicationConfig.customApplication.allowedProtocolTypes` (an absent list behaves
like the empty one: both fail the `length > 0` guard).  The JavaScript callback
returns the protocol string itself to keep it, so a kept protocol must also be a
truthy (non-empty) string. -/
def keepProtocol (templateId : String) (allowedProtocolTypes : List String)
    (extendedAccessConfig : Bool) (filterProtocol : Option String)
    (protocol : String) : Bool :=
  if templateId == customApplicationTemplateId && !allowedProtocolTypes.isEmpty then
    allowedProtocolTypes.contains protocol && protocol != ""
  else if protocol == wsTrust || protocol == customProtocol
      || (extendedAccessConfig && protocol == wsFederation)
      || (match filterProtocol with
          | some f => f != "" && protocol == f
          | none => false) then
    false
  else
    protocol != ""

/-- `getSupportedProtocols` (access-configuration.tsx, lines 404-434): start from
the template's own protocol when it declares a truthy one, otherwise from the
catalog of supported protocol types, then filter with `keepProtocol`. -/
def getSupportedProtocols (template : TemplateInfo) (allowedProtocolTypes : List String)
    (extendedAccessConfig : Bool) (filterProtocol : Option String) : List String :=
  (match template.authenticationProtocol with
   | some p => if p != "" then [p] else supportedAuthProtocolValues
   | none => supportedAuthProtocolValues).filter
    (keepProtocol template.id allowedProtocolTypes extendedAccessConfig filterProtocol)

/-! ### Sorting of the supported protocols (`loadSupportedProtocols`)

The component sorts the supported protocols with lodash `sortBy`, a stable sort by
a numeric key: the `customOrder` object starts as `{ oidc: 0, saml: 1 }` and is then
overridden, for every configured inbound protocol that is a supported protocol
type, by that protocol's position in the configured list.  A protocol absent from
the object gets the key `undefined`, which lodash sorts after every number. -/

/-- The sort key domain: `some n` is a numeric key, `none` is `undefined`.
`undefined` compares after every number (lodash `compareAscending`). -/
def optNatLe : Option Nat → Option Nat → Bool
  | _, none => true
  | none, some _ => false
  | some a, some b => decide (a ≤ b)

/-- JavaScript object property assignment on a string-keyed map of numbers:
`m[k] = v`. -/
def ordInsert (m : String → Option Nat) (k : String) (v : Nat) : String → Option Nat :=
  fun p => if p == k then some v else m p

/-- The object literal `{ [OIDC]: 0, [SAML]: 1 }` that seeds `customOrder`. -/
def customOrderBase : String → Option Nat :=
  ordInsert (ordInsert (fun _ => none) oidc 0) saml 1

/-- The `inboundProtocols.forEach((protocol, index) => ...)` loop of
`loadSupportedProtocols`: every configured protocol that is a supported protocol
type overrides its key with its index in the configured list. -/
def customOrderFold (m : String → Option Nat) :
    List String → Nat → (String → Option Nat)
  | [], _ => m
  | p :: ps, i =>
    customOrderFold
      (if supportedAuthProtocolValues.contains p then ordInsert m p i else m) ps (i + 1)

/-- The `customOrder` key map used by the `sortBy` callback of
`loadSupportedProtocols` (access-configuration.tsx, lines 453-471). -/
def customOrder (inboundProtocols : List String) : String → Option Nat :=
  customOrderFold customOrderBase inboundProtocols 0

/-- Stable insertion of an element into a list sorted by `le`: the element goes
before the first entry it compares `le` to, hence before later-arriving equals. -/
def sInsert (le : String → String → Bool) (x : String) : List String → List String
  | [] => [x]
  | y :: ys => if le x y then x :: y :: ys else y :: sInsert le x ys

/-- A stable sort by `le` (insertion sort); extensionally the lodash `sortBy`
used in `loadSupportedProtocols`, which is a stable sort by the mapped key. -/
def stableSortBy (le : String → String → Bool) : List String → List String
  | [] => []
  | x :: xs => sInsert le x (stableSortBy le xs)

/-- The list computed by `loadSupportedProtocols` (access-configuration.tsx,
lines 449-481): the supported protocols, stably sorted by the `customOrder` key. -/
def loadSupportedProtocols (template : TemplateInfo) (allowedProtocolTypes : List String)
    (extendedAccessConfig : Bool) (inboundProtocols : List String) : List String :=
  stableSortBy
    (fun a b => optNatLe (customOrder inboundProtocols a) (customOrder inboundProtocols b))
    (getSupportedProtocols template allowedProtocolTypes extendedAccessConfig none)

/-- Index of the first occurrence of a string in a list (the list's length when
absent). -/
def firstIdx (a : String) : List String → Nat
  | [] => 0
  | x :: xs => if x == a then 0 else firstIdx a xs + 1

/-! ### Backend-call handlers and their effects

Each handler of access-configuration.tsx issues one backend call and reacts to its
outcome.  A handler is embedded as a pure function from the call's outcome to the
effects it produces: the backend calls issued, the alerts dispatched and the
callbacks invoked.  Localised strings are represented by their i18n keys, built
with the same concatenation as in the source. -/

/-- Outcome of a backend call: resolved, or rejected with an error response whose
`response.data.description` is the given optional string. -/
inductive Outcome where
  | success : Outcome
  | failure : Option String → Outcome
deriving DecidableEq, Repr

/-- `true` exactly on the resolved outcome. -/
def Outcome.isSuccess : Outcome → Bool
  | .success => true
  | .failure _ => false

/-- JavaScript truthiness of `error?.response?.data?.description`: an absent or
empty description is falsy. -/
def errDescTruthy : Option String → Bool
  | some d => d != ""
  | none => false

/-- Severity of a dispatched alert. -/
inductive AlertLevel where
  | success : AlertLevel
  | error : AlertLevel
deriving DecidableEq, Repr

/-- An alert dispatched through `addAlert`; strings are i18n keys, except that a
backend-provided error description is carried verbatim. -/
structure Alert where
  description : String
  level : AlertLevel
  message : String
deriving DecidableEq, Repr

/-- The backend API calls the access-configuration component can issue. -/
inductive BackendCall where
  | deleteProtocol : String → String → BackendCall
  | updateAuthProtocolConfig : BackendCall
  | updateApplicationDetails : BackendCall
  | regenerateClientSecret : BackendCall
  | revokeClientSecret : BackendCall
  | getAuthProtocolMetadata : BackendCall
deriving DecidableEq, Repr

/-- The observable effects of one handler run. -/
structure Effects where
  calls : List BackendCall := []
  alerts : List Alert := []
  onUpdateCalled : Bool := false
  onProtocolUpdateCalled : Bool := false
  onAllowedOriginsUpdateCalled : Bool := false
  onApplicationSecretRegenerateCalled : Bool := false
  selectedProtocolCleared : Bool := false
  requestLoadingCleared : Bool := false
  protocolMetaStored : Bool := false
deriving DecidableEq, Repr

/-- Key of a localised string under
`console:develop.features.applications.notifications`. -/
def notifKey (op part : String) : String :=
  "console:develop.features.applications.notifications." ++ op ++ "." ++ part

/-- The error alert shared by the `.catch` blocks: the backend description when it
is truthy, otherwise the generic fallback for the operation. -/
def catchAlert (op : String) (desc : Option String) : Alert :=
  if errDescTruthy desc then
    ⟨desc.getD "", AlertLevel.error, notifKey op "error.message"⟩
  else
    ⟨notifKey op "genericError.description", AlertLevel.error,
      notifKey op "genericError.message"⟩

/-- `handleInboundConfigDelete` (access-configuration.tsx, lines 183-216): on
success dispatch the success alert and call `onUpdate`; on failure dispatch the
description or the generic fallback.  No `finally` block exists. -/
def handleInboundConfigDeleteRun (appId protocol : String) (o : Outcome) : Effects :=
  match o with
  | .success =>
    { calls := [.deleteProtocol appId protocol],
      alerts := [⟨notifKey "deleteProtocolConfig" "success.description",
        AlertLevel.success, notifKey "deleteProtocolConfig" "success.message"⟩],
      onUpdateCalled := true }
  | .failure desc =>
    { calls := [.deleteProtocol appId protocol],
      alerts := [catchAlert "deleteProtocolConfig" desc] }

/-- `handleInboundConfigSwitch` (access-configuration.tsx, lines 223-252): on
success call `onUpdate`; on failure dispatch the description or the generic
fallback; the `finally` block resets the loading flag and clears the selected
protocol. -/
def handleInboundConfigSwitchRun (appId protocol : String) (o : Outcome) : Effects :=
  match o with
  | .success =>
    { calls := [.deleteProtocol appId protocol],
      onUpdateCalled := true,
      selectedProtocolCleared := true,
      requestLoadingCleared := true }
  | .failure desc =>
    { calls := [.deleteProtocol appId protocol],
      alerts := [catchAlert "deleteProtocolConfig" desc],
      selectedProtocolCleared := true,
      requestLoadingCleared := true }

/-- `handleInboundConfigFormSubmit` (access-configuration.tsx, lines 260-295): on
success dispatch the success alert and call `onAllowedOriginsUpdate`; on failure
dispatch the description or the generic fallback; the `finally` block calls
`onUpdate` and `onProtocolUpdate` on both outcomes. -/
def handleInboundConfigFormSubmitRun (o : Outcome) : Effects :=
  match o with
  | .success =>
    { calls := [.updateAuthProtocolConfig],
      alerts := [⟨notifKey "updateInboundProtocolConfig" "success.description",
        AlertLevel.success, notifKey "updateInboundProtocolConfig" "success.message"⟩],
      onAllowedOriginsUpdateCalled := true,
      onUpdateCalled := true,
      onProtocolUpdateCalled := true }
  | .failure desc =>
    { calls := [.updateAuthProtocolConfig],
      alerts := [catchAlert "updateInboundProtocolConfig" desc],
      onUpdateCalled := true,
      onProtocolUpdateCalled := true }

/-- `handleSubmit` (access-configuration.tsx, lines 302-330): update the
application details first; only when that call resolves, run
`handleInboundConfigFormSubmit`; on failure dispatch the description or the
generic fallback; the `finally` block resets the loading flag. -/
def handleSubmitRun (detailsOutcome protocolOutcome : Outcome) : Effects :=
  match detailsOutcome with
  | .success =>
    let e := handleInboundConfigFormSubmitRun protocolOutcome
    { e with
      calls := BackendCall.updateApplicationDetails :: e.calls,
      requestLoadingCleared := true }
  | .failure desc =>
    { calls := [.updateApplicationDetails],
      alerts := [catchAlert "updateApplication" desc],
      requestLoadingCleared := true }

/-- `handleApplicationRegenerate` (access-configuration.tsx, lines 335-367). -/
def handleApplicationRegenerateRun (o : Outcome) : Effects :=
  match o with
  | .success =>
    { calls := [.regenerateClientSecret],
      alerts := [⟨notifKey "regenerateSecret" "success.description",
        AlertLevel.success, notifKey "regenerateSecret" "success.message"⟩],
      onApplicationSecretRegenerateCalled := true,
      onUpdateCalled := true }
  | .failure desc =>
    { calls := [.regenerateClientSecret],
      alerts := [catchAlert "regenerateSecret" desc] }

/-- `handleApplicationRevoke` (access-configuration.tsx, lines 372-402).  Note the
`.catch` fallback of the source dispatches the `revokeApplication.success.*` keys
(at error level), not the `genericError` keys the sibling handlers use. -/
def handleApplicationRevokeRun (o : Outcome) : Effects :=
  match o with
  | .success =>
    { calls := [.revokeClientSecret],
      alerts := [⟨notifKey "revokeApplication" "success.description",
        AlertLevel.success, notifKey "revokeApplication" "success.message"⟩],
      onUpdateCalled := true }
  | .failure desc =>
    { calls := [.revokeClientSecret],
      alerts :=
        [if errDescTruthy desc then
          ⟨desc.getD "", AlertLevel.error, notifKey "revokeApplication" "error.message"⟩
        else
          ⟨notifKey "revokeApplication" "success.description", AlertLevel.error,
            notifKey "revokeApplication" "success.message"⟩] }

/-- The metadata-fetch effect for one protocol (access-configuration.tsx,
lines 654-697): on success store the metadata in the shared state; on failure
dispatch the description or the generic fallback. -/
def fetchProtocolMetaRun (o : Outcome) : Effects :=
  match o with
  | .success =>
    { calls := [.getAuthProtocolMetadata], protocolMetaStored := true }
  | .failure desc =>
    { calls := [.getAuthProtocolMetadata],
      alerts := [catchAlert "fetchProtocolMeta" desc] }

/-! ### The delete-confirmation flow

The delete confirmation modal (access-configuration.tsx, lines 742-792) is rendered
only while `showDeleteConfirmationModal` is set; its primary action runs
`handleInboundConfigDelete(protocolToDelete)` and closes the modal, its secondary
action and its close handler just close the modal.  The state machine below has
one event per way these state setters can fire; `requestDelete` is the act of
opening the modal for a protocol (`setShowDeleteConfirmationModal(true)` together
with `setProtocolToDelete`; no caller inside the sampled file sets the flag, so the
machine over-approximates the reachable behaviour). -/

/-- The modal-related component state: the `showDeleteConfirmationModal` flag and
the `protocolToDelete` value. -/
structure PanelState where
  showDeleteConfirmationModal : Bool
  protocolToDelete : Option String
deriving DecidableEq, Repr

/-- The component state before any interaction: no modal, no protocol to delete. -/
def initialPanelState : PanelState := ⟨false, none⟩

/-- User-interface events of the delete flow. -/
inductive UiEvent where
  | requestDelete : String → UiEvent
  | modalClose : UiEvent
  | modalCancel : UiEvent
  | modalConfirm : UiEvent
deriving DecidableEq, Repr

/-- `true` exactly on the confirm event. -/
def UiEvent.isConfirm : UiEvent → Bool
  | .modalConfirm => true
  | _ => false

/-- `true` exactly on a request to open the delete modal. -/
def UiEvent.isRequestDelete : UiEvent → Bool
  | .requestDelete _ => true
  | _ => false

/-- One step of the delete flow: the new state and the backend calls issued.
Confirm fires `handleInboundConfigDelete(protocolToDelete)` and closes the modal;
it can fire only while the modal is rendered. -/
def panelStep (appId : String) (s : PanelState) : UiEvent → PanelState × List BackendCall
  | .requestDelete p =>
    ({ showDeleteConfirmationModal := true, protocolToDelete := some p }, [])
  | .modalClose => ({ s with showDeleteConfirmationModal := false }, [])
  | .modalCancel => ({ s with showDeleteConfirmationModal := false }, [])
  | .modalConfirm =>
    if s.showDeleteConfirmationModal then
      ({ s with showDeleteConfirmationModal := false },
        [BackendCall.deleteProtocol appId (s.protocolToDelete.getD "")])
    else
      (s, [])

/-- The backend calls issued by a sequence of user-interface events. -/
def runPanel (appId : String) (s : PanelState) : List UiEvent → List BackendCall
  | [] => []
  | e :: es =>
    let r := panelStep appId s e
    r.2 ++ runPanel appId r.1 es

/-! ### Field adapters

Each adapter of the form module (src/unnamed/part_000) resolves the value passed
to its widget from the edited input value, the explicit `childFieldProps.value`,
and the parent form's stored value for the field name, with JavaScript truthiness
deciding whether a candidate is used. -/

/-- JavaScript truthiness of an optional string: absent and empty are falsy. -/
def jsStrTruthy : Option String → Bool
  | some v => v != ""
  | none => false

/-- `parentFormProps?.values[name]`: the parent form's stored value for the field
name, when a parent form and such a stored value exist. -/
def parentStoredValue (parentValues : Option (List (String × String)))
    (name : String) : Option String :=
  match parentValues with
  | none => none
  | some vs => (vs.find? (fun kv => kv.1 == name)).map (fun kv => kv.2)

/-- The widget value of `TextFieldAdapter` (src/unnamed/part_000, lines 32-64):
`meta.modified ? input.value : (childFieldProps?.value ? childFieldProps?.value :
(parentFormProps?.values[name] ? parentFormProps?.values[name] : ""))`. -/
def textFieldAdapterValue (modified : Bool) (inputValue : String)
    (childValue : Option String) (parentValues : Option (List (String × String)))
    (name : String) : String :=
  if modified then inputValue
  else if jsStrTruthy childValue then childValue.getD ""
  else if jsStrTruthy (parentStoredValue parentValues name) then
    (parentStoredValue parentValues name).getD ""
  else ""

/-- The widget value of `PasswordFieldAdapter` (src/unnamed/part_000, lines 66-92):
the same resolution as the text adapter. -/
def passwordFieldAdapterValue (modified : Bool) (inputValue : String)
    (childValue : Option String) (parentValues : Option (List (String × String)))
    (name : String) : String :=
  if modified then inputValue
  else if jsStrTruthy childValue then childValue.getD ""
  else if jsStrTruthy (parentStoredValue parentValues name) then
    (parentStoredValue parentValues name).getD ""
  else ""

/-- The widget value of `TextAreaAdapter` (src/unnamed/part_000, lines 130-162):
the same resolution as the text adapter. -/
def textAreaAdapterValue (modified : Bool) (inputValue : String)
    (childValue : Option String) (parentValues : Option (List (String × String)))
    (name : String) : String :=
  if modified then inputValue
  else if jsStrTruthy childValue then childValue.getD ""
  else if jsStrTruthy (parentStoredValue parentValues name) then
    (parentStoredValue parentValues name).getD ""
  else ""

/-- The widget value of `CopyFieldAdapter` (src/unnamed/part_000, lines 94-128):
`childFieldProps?.value ? childFieldProps?.value :
(parentFormProps?.values[name] ? parentFormProps?.values[name] : "")`; the adapter
never consults the edited input state. -/
def copyFieldAdapterValue (childValue : Option String)
    (parentValues : Option (List (String × String))) (name : String) : String :=
  if jsStrTruthy childValue then childValue.getD ""
  else if jsStrTruthy (parentStoredValue parentValues name) then
    (parentStoredValue parentValues name).getD ""
  else ""

/-- The widget value of `SelectAdapter` (src/unnamed/part_000, lines 190-219):
`meta.modified ? input.value : (childFieldProps?.value ? childFieldProps?.value :
"")`; the adapter never consults the parent form's stored values. -/
def selectAdapterValue (modified : Bool) (inputValue : String)
    (childValue : Option String) : String :=
  if modified then inputValue
  else if jsStrTruthy childValue then childValue.getD ""
  else ""

/-- Modelled from the spec: the fixed value-precedence rule the spec states for
every adapter — the edited value when the field was modified, otherwise the
explicit (truthy) prop value, otherwise the parent form's (truthy) stored value,
otherwise the empty string. -/
def specPrecedenceValue (modified : Bool) (inputValue : String)
    (childValue : Option String) (parentValues : Option (List (String × String)))
    (name : String) : String :=
  if modified then inputValue
  else if jsStrTruthy childValue then childValue.getD ""
  else if jsStrTruthy (parentStoredValue parentValues name) then
    (parentStoredValue parentValues name).getD ""
  else ""

/-! ### The Facebook authenticator form

The form receives declarative field metadata and the configured initial values (a
flat property list) and reshapes them into field-keyed maps in its initialisation
effect; `getUpdatedConfigurations` flattens the submitted values back into the
property-list shape. -/

/-- Modelled from the spec: one declared metadata field
(`CommonAuthenticatorFormFieldMetaInterface` lives outside the sampled sources):
key, mandatory flag, read-only flag, length constraint. -/
structure FormFieldMeta where
  key : String
  isMandatory : Bool
  readOnly : Bool
  maxLength : Nat
deriving DecidableEq, Repr

/-- Modelled from the spec: the authenticator metadata
(`CommonAuthenticatorFormMetaInterface`), a list of declared fields. -/
structure AuthenticatorFormMeta where
  properties : List FormFieldMeta
deriving DecidableEq, Repr

/-- Modelled from the spec: one configured property
(`CommonAuthenticatorFormPropertyInterface`), a key/value pair. -/
structure FormProperty where
  key : String
  value : String
deriving DecidableEq, Repr

/-- Modelled from the spec: the configured initial values
(`CommonAuthenticatorFormInitialValuesInterface`): scalar fields of the
authenticator plus the flat property list. -/
structure AuthenticatorInitialValues where
  name : String
  isEnabled : Bool
  properties : List FormProperty
deriving DecidableEq, Repr

/-- One entry of the resolved form-field map: the matching metadata (when any is
declared for the key) and the configured value. -/
structure ResolvedFormField where
  meta : Option FormFieldMeta
  value : String
deriving DecidableEq, Repr

/-- JavaScript object spread update `{ ...m, [k]: v }` on a string-keyed map: an
existing key keeps its position and gets the new value, a new key is appended. -/
def objUpsert {β : Type} (m : List (String × β)) (k : String) (v : β) :
    List (String × β) :=
  if m.any (fun kv => kv.1 == k) then
    m.map (fun kv => if kv.1 == k then (k, v) else kv)
  else
    m ++ [(k, v)]

/-- One iteration of the `originalInitialValues.properties.map` loop of the
initialisation effect (facebook-authenticator-form.tsx, lines 190-206): spread the
property into both accumulated maps, keyed by the property key, carrying the
metadata entry found for that key and the property value. -/
def facebookFoldStep (metadata : Option AuthenticatorFormMeta)
    (acc : List (String × ResolvedFormField) × List (String × String))
    (v : FormProperty) :
    List (String × ResolvedFormField) × List (String × String) :=
  let m := metadata.bind (fun md => md.properties.find? (fun fm => fm.key == v.key))
  (objUpsert acc.1 v.key ⟨m, v.value⟩, objUpsert acc.2 v.key v.value)

/-- The initialisation effect of `FacebookAuthenticatorForm`
(facebook-authenticator-form.tsx, lines 181-210): return early (leaving both
states `undefined`, modelled as `none`) when the configured property list is
absent or empty; otherwise fold the property list with `facebookFoldStep` into
the field map and the flat initial-value map. -/
def facebookInitEffect (metadata : Option AuthenticatorFormMeta)
    (originalInitialValues : Option AuthenticatorInitialValues) :
    Option (List (String × ResolvedFormField) × List (String × String)) :=
  match originalInitialValues with
  | none => none
  | some orig =>
    if orig.properties.isEmpty then none
    else some (orig.properties.foldl (facebookFoldStep metadata) ([], []))

/-- Modelled from the spec: the field map the spec describes — exactly the union
of the declared metadata fields, each entry valued with the supplied property's
value when one is present and empty otherwise. -/
def facebookFieldMapSpec (metadata : Option AuthenticatorFormMeta)
    (originalInitialValues : Option AuthenticatorInitialValues) :
    List (String × ResolvedFormField) :=
  let props : List FormProperty :=
    match originalInitialValues with
    | none => []
    | some o => o.properties
  match metadata with
  | none => []
  | some md =>
    md.properties.map (fun fm =>
      (fm.key,
        { meta := some fm,
          value :=
            match props.find? (fun p => p.key == fm.key) with
            | some p => p.value
            | none => "" }))

/-- `getUpdatedConfigurations` (facebook-authenticator-form.tsx, lines 219-237):
push every submitted entry as a `{ key, value }` property (the `key !== undefined`
guard always holds: `Object.entries` keys are strings) and return the original
initial values with only `properties` replaced. -/
def getUpdatedConfigurations (originalInitialValues : AuthenticatorInitialValues)
    (values : List (String × String)) : AuthenticatorInitialValues :=
  { originalInitialValues with
    properties := values.foldl (fun props kv => props ++ [⟨kv.1, kv.2⟩]) [] }

/-! ### Helper lemmas -/

/-- Folding `push` over a list of entries builds the mapped list after the
accumulator. -/
theorem foldl_push_eq_append_map (values : List (String × String))
    (acc : List FormProperty) :
    values.foldl (fun props kv => props ++ [(⟨kv.1, kv.2⟩ : FormProperty)]) acc
      = acc ++ values.map (fun kv => (⟨kv.1, kv.2⟩ : FormProperty)) := by
  induction values generalizing acc with
  | nil => simp
  | cons kv rest ih => simp [ih, List.append_assoc]

/-- Folding `facebookFoldStep` over properties whose keys are fresh for the
accumulator and mutually distinct appends one entry per property to each map. -/
theorem foldl_facebookFoldStep_fresh (metadata : Option AuthenticatorFormMeta)
    (props : List FormProperty)
    (acc : List (String × ResolvedFormField) × List (String × String))
    (hfresh : ∀ p ∈ props, acc.1.any (fun kv => kv.1 == p.key) = false
      ∧ acc.2.any (fun kv => kv.1 == p.key) = false)
    (hnd : (props.map FormProperty.key).Nodup) :
    props.foldl (facebookFoldStep metadata) acc
      = (acc.1 ++ props.map (fun v =>
            (v.key,
              (⟨metadata.bind (fun md => md.properties.find? (fun fm => fm.key == v.key)),
                v.value⟩ : ResolvedFormField))),
         acc.2 ++ props.map (fun v => (v.key, v.value))) := by
  induction props generalizing acc with
  | nil => simp
  | cons p ps ih =>
    obtain ⟨h1, h2⟩ := hfresh p (List.mem_cons_self p ps)
    rw [List.map_cons, List.nodup_cons] at hnd
    have hstep : facebookFoldStep metadata acc p
        = (acc.1 ++ [(p.key,
            (⟨metadata.bind (fun md => md.properties.find? (fun fm => fm.key == p.key)),
              p.value⟩ : ResolvedFormField))],
          acc.2 ++ [(p.key, p.value)]) := by
      simp [facebookFoldStep, objUpsert, h1, h2]
    rw [List.foldl_cons, hstep, ih]
    · simp
    · intro q hq
      have hkey : p.key ≠ q.key := by
        intro h
        exact hnd.1 (h ▸ List.mem_map_of_mem FormProperty.key hq)
      constructor
      · rw [List.any_append]
        have := (hfresh q (List.mem_cons_of_mem p hq)).1
        simp [this, hkey]
      · rw [List.any_append]
        have := (hfresh q (List.mem_cons_of_mem p hq)).2
        simp [this, hkey]
    · exact hnd.2

/-- A protocol absent from the configured list keeps its seed key. -/
theorem customOrderFold_not_mem (l : List String) (m : String → Option Nat) (i : Nat)
    (p : String) (hp : p ∉ l) : customOrderFold m l i p = m p := by
  induction l generalizing m i with
  | nil => rfl
  | cons q qs ih =>
    have hq : p ≠ q := fun h => hp (h ▸ List.mem_cons_self q qs)
    have hps : p ∉ qs := fun h => hp (List.mem_cons_of_mem _ h)
    rw [customOrderFold, ih _ _ hps]
    split
    · simp [ordInsert, hq]
    · rfl

/-- When OIDC is not among the configured protocols its sort key stays `0`. -/
theorem customOrder_oidc (inboundProtocols : List String)
    (h : oidc ∉ inboundProtocols) : customOrder inboundProtocols oidc = some 0 := by
  rw [customOrder, customOrderFold_not_mem _ _ _ _ h]
  decide

/-- When SAML is not among the configured protocols its sort key stays `1`. -/
theorem customOrder_saml (inboundProtocols : List String)
    (h : saml ∉ inboundProtocols) : customOrder inboundProtocols saml = some 1 := by
  rw [customOrder, customOrderFold_not_mem _ _ _ _ h]
  decide

/-- Membership in a stable insertion. -/
theorem mem_sInsert (le : String → String → Bool) (x a : String) (l : List String) :
    a ∈ sInsert le x l ↔ a = x ∨ a ∈ l := by
  induction l with
  | nil => simp [sInsert]
  | cons y ys ih =>
    rw [sInsert]
    split
    · simp [List.mem_cons]
    · simp [List.mem_cons, ih]
      tauto

/-- Stable insertion preserves sortedness for a total transitive comparison. -/
theorem pairwise_sInsert (le : String → String → Bool)
    (htot : ∀ a b, le a b = true ∨ le b a = true)
    (htrans : ∀ a b c, le a b = true → le b c = true → le a c = true)
    (x : String) (l : List String)
    (h : l.Pairwise (fun a b => le a b = true)) :
    (sInsert le x l).Pairwise (fun a b => le a b = true) := by
  induction l with
  | nil => simp [sInsert]
  | cons y ys ih =>
    cases h with
    | cons hy hys =>
      rw [sInsert]
      split
      · rename_i hxy
        refine List.Pairwise.cons ?_ (List.Pairwise.cons hy hys)
        intro z hz
        rcases List.mem_cons.mp hz with rfl | hz'
        · exact hxy
        · exact htrans x y z hxy (hy z hz')
      · rename_i hxy
        have hyx : le y x = true := by
          rcases htot x y with h1 | h1
          · exact absurd h1 hxy
          · exact h1
        refine List.Pairwise.cons ?_ (ih hys)
        intro z hz
        rcases (mem_sInsert le x z ys).mp hz with rfl | hz'
        · exact hyx
        · exact hy z hz'

/-- A stable insertion sort is sorted for a total transitive comparison. -/
theorem pairwise_stableSortBy (le : String → String → Bool)
    (htot : ∀ a b, le a b = true ∨ le b a = true)
    (htrans : ∀ a b c, le a b = true → le b c = true → le a c = true)
    (l : List String) :
    (stableSortBy le l).Pairwise (fun a b => le a b = true) := by
  induction l with
  | nil => simp [stableSortBy]
  | cons x xs ih =>
    rw [stableSortBy]
    exact pairwise_sInsert le htot htrans x _ ih

/-- In a sorted list, an element whose key is strictly below another element's key
occurs strictly earlier. -/
theorem firstIdx_lt_of_pairwise (R : String → String → Bool) (a b : String)
    (S : List String) (hpw : S.Pairwise (fun x y => R x y = true))
    (ha : a ∈ S) (hb : b ∈ S) (hba : R b a = false)
    (hrefl : ∀ x, R x x = true) :
    firstIdx a S < firstIdx b S := by
  have hab : a ≠ b := by
    intro h
    subst h
    rw [hrefl a] at hba
    cases hba
  revert hpw ha hb
  induction S with
  | nil =>
    intro _ ha _
    cases ha
  | cons x xs ih =>
    intro hpw ha hb
    cases hpw with
    | cons hx hxs =>
      by_cases hxa : x = a
      · have hfa : firstIdx a (x :: xs) = 0 := by simp [firstIdx, hxa]
        have hxb : ¬ x = b := by
          rw [hxa]
          exact hab
        have hfb : firstIdx b (x :: xs) = firstIdx b xs + 1 := by simp [firstIdx, hxb]
        rw [hfa, hfb]
        exact Nat.succ_pos _
      · have ha' : a ∈ xs := by
          rcases List.mem_cons.mp ha with h | h
          · exact absurd h.symm hxa
          · exact h
        by_cases hxb : x = b
        · exfalso
          have hra : R x a = true := hx a ha'
          rw [hxb] at hra
          rw [hba] at hra
          cases hra
        · have hb' : b ∈ xs := by
            rcases List.mem_cons.mp hb with h | h
            · exact absurd h.symm hxb
            · exact h
          have hfa : firstIdx a (x :: xs) = firstIdx a xs + 1 := by simp [firstIdx, hxa]
          have hfb : firstIdx b (x :: xs) = firstIdx b xs + 1 := by simp [firstIdx, hxb]
          rw [hfa, hfb]
          exact Nat.succ_lt_succ (ih hxs ha' hb')

/-- Every backend delete call of the delete flow is emitted by a confirm event. -/
theorem runPanel_length_le_confirms (appId : String) (es : List UiEvent) :
    ∀ s : PanelState, (runPanel appId s es).length ≤ es.countP UiEvent.isConfirm := by
  induction es with
  | nil =>
    intro s
    simp [runPanel]
  | cons e es ih =>
    intro s
    rw [runPanel, List.length_append, List.countP_cons]
    cases e with
    | requestDelete p =>
      have := ih { showDeleteConfirmationModal := true, protocolToDelete := some p }
      simp [panelStep, UiEvent.isConfirm]
      omega
    | modalClose =>
      have := ih { s with showDeleteConfirmationModal := false }
      simp [panelStep, UiEvent.isConfirm]
      omega
    | modalCancel =>
      have := ih { s with showDeleteConfirmationModal := false }
      simp [panelStep, UiEvent.isConfirm]
      omega
    | modalConfirm =>
      simp only [panelStep, UiEvent.isConfirm]
      split
      · have := ih { s with showDeleteConfirmationModal := false }
        simp
        omega
      · have := ih s
        simp
        omega

/-- Every backend delete call of the delete flow needs its own opening of the
modal, beyond one call a still-open modal could account for. -/
theorem runPanel_length_le_requests (appId : String) (es : List UiEvent) :
    ∀ s : PanelState, (runPanel appId s es).length
      ≤ es.countP UiEvent.isRequestDelete
        + (if s.showDeleteConfirmationModal then 1 else 0) := by
  induction es with
  | nil =>
    intro s
    simp [runPanel]
  | cons e es ih =>
    intro s
    rw [runPanel, List.length_append, List.countP_cons]
    cases e with
    | requestDelete p =>
      have := ih { showDeleteConfirmationModal := true, protocolToDelete := some p }
      simp at this
      simp [panelStep, UiEvent.isRequestDelete]
      omega
    | modalClose =>
      have := ih { s with showDeleteConfirmationModal := false }
      simp at this
      simp [panelStep, UiEvent.isRequestDelete]
      omega
    | modalCancel =>
      have := ih { s with showDeleteConfirmationModal := false }
      simp at this
      simp [panelStep, UiEvent.isRequestDelete]
      omega
    | modalConfirm =>
      simp only [panelStep, UiEvent.isRequestDelete]
      split
      · rename_i hs
        have := ih { s with showDeleteConfirmationModal := false }
        simp at this
        simp [hs]
        omega
      · rename_i hs
        rw [Bool.not_eq_true] at hs
        have := ih s
        rw [hs] at this
        simp at this
        simp
        omega

/-- With the modal hidden and no request to open it, the delete flow issues no
backend call at all. -/
theorem runPanel_no_request_no_calls (appId : String) (es : List UiEvent) :
    ∀ s : PanelState, s.showDeleteConfirmationModal = false →
      (∀ e ∈ es, e.isRequestDelete = false) → runPanel appId s es = [] := by
  induction es with
  | nil =>
    intro s _ _
    rfl
  | cons e es ih =>
    intro s hs hreq
    have hes : ∀ e ∈ es, e.isRequestDelete = false :=
      fun e he => hreq e (List.mem_cons_of_mem _ he)
    cases e with
    | requestDelete p =>
      exact absurd (hreq _ (List.mem_cons_self _ _)) (by simp [UiEvent.isRequestDelete])
    | modalClose =>
      rw [runPanel]
      simp only [panelStep]
      rw [ih _ rfl hes]
      rfl
    | modalCancel =>
      rw [runPanel]
      simp only [panelStep]
      rw [ih _ rfl hes]
      rfl
    | modalConfirm =>
      rw [runPanel]
      simp only [panelStep, hs]
      simp only [Bool.false_eq_true, if_false, List.nil_append]
      exact ih s hs hes

/-! ### Claim theorems -/

/-- C1 counterexample: the supported-protocol list is NOT always free of WS-Trust.
For a custom-application template whose extension configuration allows WS-Trust,
`getSupportedProtocols` takes the allowed-protocol-types branch and keeps
WS-Trust, so the quantification of the claim over all templates fails. -/
theorem getSupportedProtocols_keeps_wsTrust_for_custom_template :
    wsTrust ∈ getSupportedProtocols ⟨customApplicationTemplateId, none⟩ [wsTrust]
      false none := by
  decide

/-- C1 amended: whenever the custom-application-template branch does not apply
(the template is not the custom application template, or no allowed protocol
types are configured for it), every protocol in the list computed by
`getSupportedProtocols` differs from WS-Trust and custom, and from WS-Federation
when the extended-access-config flag is set. -/
theorem getSupportedProtocols_excludes (template : TemplateInfo)
    (allowedProtocolTypes : List String) (extendedAccessConfig : Bool)
    (filterProtocol : Option String) (p : String)
    (hcb : template.id ≠ customApplicationTemplateId ∨ allowedProtocolTypes = [])
    (hp : p ∈ getSupportedProtocols template allowedProtocolTypes
      extendedAccessConfig filterProtocol) :
    p ≠ wsTrust ∧ p ≠ customProtocol
      ∧ (extendedAccessConfig = true → p ≠ wsFederation) := by
  have hk : keepProtocol template.id allowedProtocolTypes extendedAccessConfig
      filterProtocol p = true := (List.mem_filter.mp hp).2
  have hc : (template.id == customApplicationTemplateId
      && !allowedProtocolTypes.isEmpty) = false := by
    rcases hcb with h | h
    · simp [h]
    · simp [h]
  rw [keepProtocol.eq_def, hc] at hk
  simp only [Bool.false_eq_true, if_false] at hk
  split at hk
  · cases hk
  · rename_i hcond
    simp only [Bool.or_eq_true, Bool.and_eq_true, beq_iff_eq, not_or] at hcond
    obtain ⟨⟨⟨h1, h2⟩, h3⟩, -⟩ := hcond
    exact ⟨h1, h2, fun hext hpw => h3 ⟨hext, hpw⟩⟩

/-- C1 witness. -/
theorem getSupportedProtocols_excludes_witness :
    ((("t" : String) ≠ customApplicationTemplateId ∨ ([] : List String) = [])
      ∧ oidc ∈ getSupportedProtocols ⟨"t", none⟩ [] true none)
    ∧ (oidc ≠ wsTrust ∧ oidc ≠ customProtocol
      ∧ (true = true → oidc ≠ wsFederation)) :=
  ⟨⟨Or.inr rfl, by decide⟩,
    getSupportedProtocols_excludes ⟨"t", none⟩ [] true none oidc (Or.inr rfl)
      (by decide)⟩

/-- C2 counterexample: the resolved form-field map is keyed by the supplied
properties, not by the declared metadata fields.  With metadata declaring the
mandatory field `ClientId` and initial values supplying only a `scope` property,
the effect resolves a map with a single `scope` entry and no `ClientId` entry,
while the map the claim describes consists of exactly the `ClientId` entry. -/
theorem facebookFieldMap_misses_declared_field :
    facebookInitEffect (some ⟨[⟨"ClientId", true, false, 100⟩]⟩)
        (some ⟨"facebook", true, [⟨"scope", "email"⟩]⟩)
      = some ([("scope", ⟨none, "email"⟩)], [("scope", "email")])
    ∧ facebookFieldMapSpec (some ⟨[⟨"ClientId", true, false, 100⟩]⟩)
        (some ⟨"facebook", true, [⟨"scope", "email"⟩]⟩)
      = [("ClientId", ⟨some ⟨"ClientId", true, false, 100⟩, ""⟩)]
    ∧ (facebookInitEffect (some ⟨[⟨"ClientId", true, false, 100⟩]⟩)
        (some ⟨"facebook", true, [⟨"scope", "email"⟩]⟩)).map Prod.fst
      ≠ some (facebookFieldMapSpec (some ⟨[⟨"ClientId", true, false, 100⟩]⟩)
        (some ⟨"facebook", true, [⟨"scope", "email"⟩]⟩)) := by
  refine ⟨by decide, by decide, by decide⟩

/-- C2 amended: for a non-empty supplied property list with pairwise distinct
keys, the initialisation effect resolves exactly one form-field entry per
supplied property, keyed by the property key, valued with the supplied value, and
carrying the metadata entry declared for that key when one exists; the resolved
initial values are the flat key/value pairs of the same properties. -/
theorem facebookInitEffect_resolved (metadata : Option AuthenticatorFormMeta)
    (o : AuthenticatorInitialValues) (hne : o.properties ≠ [])
    (hnd : (o.properties.map FormProperty.key).Nodup) :
    facebookInitEffect metadata (some o)
      = some
        (o.properties.map (fun v =>
          (v.key,
            (⟨metadata.bind (fun md => md.properties.find? (fun fm => fm.key == v.key)),
              v.value⟩ : ResolvedFormField))),
         o.properties.map (fun v => (v.key, v.value))) := by
  have hE : o.properties.isEmpty = false := by
    cases hq : o.properties with
    | nil => exact absurd hq hne
    | cons q qs => rfl
  rw [facebookInitEffect, hE]
  simp only [Bool.false_eq_true, if_false]
  rw [foldl_facebookFoldStep_fresh metadata o.properties ([], []) (by simp) hnd]
  simp

/-- C2 witness. -/
theorem facebookInitEffect_resolved_witness :
    ((⟨"facebook", true, [⟨"scope", "email"⟩]⟩ : AuthenticatorInitialValues).properties ≠ []
      ∧ ((⟨"facebook", true, [⟨"scope", "email"⟩]⟩
          : AuthenticatorInitialValues).properties.map FormProperty.key).Nodup)
    ∧ facebookInitEffect none (some ⟨"facebook", true, [⟨"scope", "email"⟩]⟩)
      = some ([("scope", ⟨none, "email"⟩)], [("scope", "email")]) := by
  refine ⟨⟨by decide, by simp⟩, ?_⟩
  have h := facebookInitEffect_resolved none ⟨"facebook", true, [⟨"scope", "email"⟩]⟩
    (by decide) (by simp)
  simpa using h

/-- C3 (code bug): the generic fallback of the failed secret-revoke call does not
show the generic fallback description.  When the revoke call fails without a
structured description, the dispatched error alert carries the
`revokeApplication.success.description` string (and the success message key) at
error level, which differs from the generic fallback description for the revoke
operation; the delete handler by contrast dispatches the proper generic
fallback. -/
theorem revoke_generic_fallback_uses_success_keys :
    (handleApplicationRevokeRun (Outcome.failure none)).alerts
      = [⟨notifKey "revokeApplication" "success.description", AlertLevel.error,
          notifKey "revokeApplication" "success.message"⟩]
    ∧ notifKey "revokeApplication" "success.description"
        ≠ notifKey "revokeApplication" "genericError.description"
    ∧ (handleInboundConfigDeleteRun "app" "oidc" (Outcome.failure none)).alerts
      = [⟨notifKey "deleteProtocolConfig" "genericError.description", AlertLevel.error,
          notifKey "deleteProtocolConfig" "genericError.message"⟩] := by
  refine ⟨by decide, by decide, by decide⟩

/-- C4 counterexample: a failed delete-protocol call never invokes the `onUpdate`
refresh callback; `handleInboundConfigDelete` has no cleanup phase and calls
`onUpdate` only in its success continuation. -/
theorem delete_failure_skips_onUpdate :
    (handleInboundConfigDeleteRun "app" "oidc" (Outcome.failure none)).onUpdateCalled
      = false := by
  decide

/-- C4 amended: only the protocol-configuration update invokes the refresh
callbacks unconditionally in a cleanup phase (`onUpdate` and `onProtocolUpdate`
on both outcomes); the delete and switch handlers invoke `onUpdate` exactly on
the success outcome, the switch handler's cleanup phase only resets the loading
flag and clears the selected protocol. -/
theorem refresh_callbacks_per_handler (appId protocol : String) (o : Outcome) :
    (handleInboundConfigFormSubmitRun o).onUpdateCalled = true
    ∧ (handleInboundConfigFormSubmitRun o).onProtocolUpdateCalled = true
    ∧ (handleInboundConfigDeleteRun appId protocol o).onUpdateCalled = o.isSuccess
    ∧ (handleInboundConfigSwitchRun appId protocol o).onUpdateCalled = o.isSuccess
    ∧ (handleInboundConfigSwitchRun appId protocol o).selectedProtocolCleared = true
    ∧ (handleInboundConfigSwitchRun appId protocol o).requestLoadingCleared = true := by
  cases o <;>
    simp [handleInboundConfigFormSubmitRun, handleInboundConfigDeleteRun,
      handleInboundConfigSwitchRun, Outcome.isSuccess]

/-- C5: when neither OIDC nor SAML is among the previously configured inbound
protocols and both are in the computed supported-protocol list, the sorted list
produced by `loadSupportedProtocols` places OIDC strictly before SAML (keys `0`
and `1` of the custom order, with configured protocols keeping their existing
configuration order and all other protocols sorted after). -/
theorem loadSupportedProtocols_oidc_before_saml (template : TemplateInfo)
    (allowedProtocolTypes : List String) (extendedAccessConfig : Bool)
    (inboundProtocols : List String)
    (hO : oidc ∉ inboundProtocols) (hS : saml ∉ inboundProtocols)
    (hmo : oidc ∈ loadSupportedProtocols template allowedProtocolTypes
      extendedAccessConfig inboundProtocols)
    (hms : saml ∈ loadSupportedProtocols template allowedProtocolTypes
      extendedAccessConfig inboundProtocols) :
    firstIdx oidc (loadSupportedProtocols template allowedProtocolTypes
        extendedAccessConfig inboundProtocols)
      < firstIdx saml (loadSupportedProtocols template allowedProtocolTypes
        extendedAccessConfig inboundProtocols) := by
  have htot : ∀ a b : String,
      optNatLe (customOrder inboundProtocols a) (customOrder inboundProtocols b) = true
      ∨ optNatLe (customOrder inboundProtocols b) (customOrder inboundProtocols a)
        = true := by
    intro a b
    cases customOrder inboundProtocols a <;> cases customOrder inboundProtocols b <;>
      simp [optNatLe]
    omega
  have htrans : ∀ a b c : String,
      optNatLe (customOrder inboundProtocols a) (customOrder inboundProtocols b) = true →
      optNatLe (customOrder inboundProtocols b) (customOrder inboundProtocols c) = true →
      optNatLe (customOrder inboundProtocols a) (customOrder inboundProtocols c)
        = true := by
    intro a b c
    cases customOrder inboundProtocols a <;> cases customOrder inboundProtocols b <;>
      cases customOrder inboundProtocols c <;> simp [optNatLe]
    omega
  have hrefl : ∀ x : String,
      optNatLe (customOrder inboundProtocols x) (customOrder inboundProtocols x)
        = true := by
    intro x
    cases customOrder inboundProtocols x <;> simp [optNatLe]
  have hpw := pairwise_stableSortBy
    (fun a b => optNatLe (customOrder inboundProtocols a) (customOrder inboundProtocols b))
    htot htrans
    (getSupportedProtocols template allowedProtocolTypes extendedAccessConfig none)
  have hba :
      optNatLe (customOrder inboundProtocols saml) (customOrder inboundProtocols oidc)
        = false := by
    rw [customOrder_saml _ hS, customOrder_oidc _ hO]
    decide
  exact firstIdx_lt_of_pairwise
    (fun a b => optNatLe (customOrder inboundProtocols a) (customOrder inboundProtocols b))
    oidc saml _ hpw hmo hms hba hrefl

/-- C5 witness. -/
theorem loadSupportedProtocols_oidc_before_saml_witness :
    (oidc ∉ ([] : List String) ∧ saml ∉ ([] : List String)
      ∧ oidc ∈ loadSupportedProtocols ⟨"t", none⟩ [] false []
      ∧ saml ∈ loadSupportedProtocols ⟨"t", none⟩ [] false [])
    ∧ firstIdx oidc (loadSupportedProtocols ⟨"t", none⟩ [] false [])
        < firstIdx saml (loadSupportedProtocols ⟨"t", none⟩ [] false []) :=
  ⟨⟨by decide, by decide, by decide, by decide⟩,
    loadSupportedProtocols_oidc_before_saml ⟨"t", none⟩ [] false []
      (by decide) (by decide) (by decide) (by decide)⟩

/-- C6 counterexample: the select adapter does not follow the full precedence
rule.  With an unmodified field, no explicit prop value and a parent form storing
a value for the field name, the select adapter passes the empty string while the
precedence rule of the claim resolves the parent form's stored value. -/
theorem select_adapter_ignores_parent_values :
    selectAdapterValue false "edited" none = ""
    ∧ specPrecedenceValue false "edited" none (some [("field1", "stored")]) "field1"
      = "stored" := by
  refine ⟨by decide, by decide⟩

/-- C6 amended: the text, password and textarea adapters resolve the widget value
exactly by the fixed precedence rule (edited value, then truthy explicit prop
value, then truthy parent-form stored value, then empty); the copy adapter
follows the rule with the edited-value step absent (it never consults the edited
input state), and the select adapter follows it with the parent-form step absent
(it never consults the parent form's stored values). -/
theorem adapter_value_precedence (modified : Bool) (inputValue : String)
    (childValue : Option String) (parentValues : Option (List (String × String)))
    (name : String) :
    textFieldAdapterValue modified inputValue childValue parentValues name
        = specPrecedenceValue modified inputValue childValue parentValues name
    ∧ passwordFieldAdapterValue modified inputValue childValue parentValues name
        = specPrecedenceValue modified inputValue childValue parentValues name
    ∧ textAreaAdapterValue modified inputValue childValue parentValues name
        = specPrecedenceValue modified inputValue childValue parentValues name
    ∧ copyFieldAdapterValue childValue parentValues name
        = specPrecedenceValue false inputValue childValue parentValues name
    ∧ selectAdapterValue modified inputValue childValue
        = specPrecedenceValue modified inputValue childValue none name := by
  refine ⟨rfl, rfl, rfl, ?_, ?_⟩
  · simp [copyFieldAdapterValue, specPrecedenceValue]
  · simp [selectAdapterValue, specPrecedenceValue, parentStoredValue, jsStrTruthy]

/-- C7: the protocol-configuration update call is issued only when the
application-details update has resolved successfully, and then strictly after it;
a failed details update issues no protocol-configuration call. -/
theorem protocol_update_only_after_details_success
    (detailsOutcome protocolOutcome : Outcome)
    (h : BackendCall.updateAuthProtocolConfig
      ∈ (handleSubmitRun detailsOutcome protocolOutcome).calls) :
    detailsOutcome = Outcome.success
    ∧ (handleSubmitRun detailsOutcome protocolOutcome).calls
      = [BackendCall.updateApplicationDetails, BackendCall.updateAuthProtocolConfig] := by
  cases detailsOutcome with
  | success =>
    refine ⟨rfl, ?_⟩
    cases protocolOutcome <;> rfl
  | failure d =>
    exfalso
    simp [handleSubmitRun] at h

/-- C7 witness. -/
theorem protocol_update_only_after_details_success_witness :
    (BackendCall.updateAuthProtocolConfig
      ∈ (handleSubmitRun Outcome.success Outcome.success).calls)
    ∧ (Outcome.success = Outcome.success
      ∧ (handleSubmitRun Outcome.success Outcome.success).calls
        = [BackendCall.updateApplicationDetails, BackendCall.updateAuthProtocolConfig]) :=
  ⟨by decide,
    protocol_update_only_after_details_success Outcome.success Outcome.success
      (by decide)⟩

/-- C8: in the delete flow every backend delete call needs its own confirmed
modal: from the initial state, the number of delete calls issued by any event
sequence is bounded by the number of confirmations and by the number of times the
confirmation modal was opened, and a sequence that never opens the modal issues
no backend call at all. -/
theorem delete_requires_confirmed_modal (appId : String) (es : List UiEvent) :
    (runPanel appId initialPanelState es).length ≤ es.countP UiEvent.isConfirm
    ∧ (runPanel appId initialPanelState es).length ≤ es.countP UiEvent.isRequestDelete
    ∧ ((∀ e ∈ es, e.isRequestDelete = false) →
        runPanel appId initialPanelState es = []) := by
  refine ⟨runPanel_length_le_confirms appId es initialPanelState, ?_, ?_⟩
  · have := runPanel_length_le_requests appId es initialPanelState
    simpa [initialPanelState] using this
  · exact runPanel_no_request_no_calls appId es initialPanelState rfl

/-- C8 witness. -/
theorem delete_requires_confirmed_modal_witness :
    (runPanel "app1" initialPanelState [UiEvent.modalConfirm]).length
        ≤ [UiEvent.modalConfirm].countP UiEvent.isConfirm
    ∧ runPanel "app1" initialPanelState [UiEvent.modalConfirm] = [] :=
  ⟨(delete_requires_confirmed_modal "app1" [UiEvent.modalConfirm]).1,
    (delete_requires_confirmed_modal "app1" [UiEvent.modalConfirm]).2.2 (by decide)⟩

/-- C9: the object forwarded to the caller's submit handler is the original
initial-values object with only its `properties` field replaced by the key/value
pairs of the submitted values; every other field is unchanged. -/
theorem getUpdatedConfigurations_frame (orig : AuthenticatorInitialValues)
    (values : List (String × String)) :
    (getUpdatedConfigurations orig values).properties
        = values.map (fun kv => (⟨kv.1, kv.2⟩ : FormProperty))
    ∧ (getUpdatedConfigurations orig values).name = orig.name
    ∧ (getUpdatedConfigurations orig values).isEnabled = orig.isEnabled := by
  refine ⟨?_, rfl, rfl⟩
  simp [getUpdatedConfigurations, foldl_push_eq_append_map]

/-- C10: when the configured initial values are absent or supply an empty
property list, the initialisation effect returns early and both the resolved
form-field map and the resolved initial values stay unresolved (`none`),
whatever the metadata declares. -/
theorem facebookInitEffect_empty_properties (metadata : Option AuthenticatorFormMeta)
    (orig : Option AuthenticatorInitialValues)
    (h : orig = none ∨ ∃ o, orig = some o ∧ o.properties = []) :
    facebookInitEffect metadata orig = none := by
  rcases h with h | ⟨o, rfl, ho⟩
  · subst h
    rfl
  · simp [facebookInitEffect, ho]

/-- C10 witness. -/
theorem facebookInitEffect_empty_properties_witness :
    ((some (⟨"facebook", true, []⟩ : AuthenticatorInitialValues) = none
        ∨ ∃ o, some (⟨"facebook", true, []⟩ : AuthenticatorInitialValues) = some o
          ∧ o.properties = [])
      ∧ facebookInitEffect (some ⟨[⟨"ClientId", true, false, 100⟩]⟩)
          (some ⟨"facebook", true, []⟩) = none) :=
  ⟨Or.inr ⟨⟨"facebook", true, []⟩, rfl, rfl⟩,
    facebookInitEffect_empty_properties (some ⟨[⟨"ClientId", true, false, 100⟩]⟩)
      (some ⟨"facebook", true, []⟩) (Or.inr ⟨⟨"facebook", true, []⟩, rfl, rfl⟩)⟩
